import Mathlib

/-!
Verification of the Civo provider (src/providers/civo.go) of oauth2-proxy.

The Go file defines a CivoProvider with an account restriction, a required
permission set and a permissions URL.  Its operations are embedded below as
pure Lean functions: remote fetches become explicit inputs of type
Except String _, in-place mutation of the session becomes a returned
SessionState, and the number of outbound network calls the code would have
issued is returned alongside the result.
-/

namespace Civo

/-- Permission is the record returned by the Civo permissions endpoint
(src/providers/civo.go, type Permission). -/
structure Permission where
  code : String
  name : String
  description : String
deriving DecidableEq

/-- URLModel is a scheme, host, path model of Go net/url URL values as used by
the Civo provider defaults, which carry no user, query or fragment component. -/
structure URLModel where
  scheme : String
  host : String
  path : String
deriving DecidableEq

/-- urlString models Go URL.String on scheme, host, path URLs: the scheme is
followed by a colon, a nonempty host is preceded by two slashes, and a slash is
inserted before a rootless nonempty path when a host is present. -/
def urlString (u : URLModel) : String :=
  (if u.scheme = "" then "" else u.scheme ++ ":") ++
  (if u.host = "" then "" else "//" ++ u.host) ++
  (if u.host ≠ "" ∧ u.path ≠ "" ∧ u.path.toList.head? ≠ some '/' then
    "/" ++ u.path
   else u.path)

/-- ProviderData models the generic provider data embedded in CivoProvider.
Modelled from the spec: the ProviderData type itself lives outside
src/providers; the spec lists its login, redeem, profile and validate
endpoints, its scope, and the provider name. -/
structure ProviderData where
  ProviderName : String
  LoginURL : URLModel
  RedeemURL : URLModel
  ProfileURL : URLModel
  ValidateURL : URLModel
  Scope : String
deriving DecidableEq

/-- providerDefaults mirrors the struct literal passed to setProviderDefaults
in NewCivoProvider (src/providers/civo.go lines 60 to 67). -/
structure ProviderDefaults where
  name : String
  loginURL : URLModel
  redeemURL : URLModel
  profileURL : URLModel
  validateURL : URLModel
  scope : String

/-- Modelled from the spec: setProviderDefaults lives outside src/providers.
Per the spec the default endpoints and scope are used unless overridden by
configuration, so each URL whose string form is empty is replaced by its
default, an empty scope is replaced by the default scope, and the provider
name is set; the tests in src/providers/civo_test.go exercise exactly this
behaviour. -/
def setProviderDefaults (p : ProviderData) (d : ProviderDefaults) : ProviderData :=
  { ProviderName := d.name
    LoginURL := if urlString p.LoginURL = "" then d.loginURL else p.LoginURL
    RedeemURL := if urlString p.RedeemURL = "" then d.redeemURL else p.RedeemURL
    ProfileURL := if urlString p.ProfileURL = "" then d.profileURL else p.ProfileURL
    ValidateURL := if urlString p.ValidateURL = "" then d.validateURL else p.ValidateURL
    Scope := if p.Scope = "" then d.scope else p.Scope }

/-- CivoDefaultScope (src/providers/civo.go line 29). -/
def CivoDefaultScope : String := "read"

/-- CivoDefaultLoginURL (src/providers/civo.go lines 35 to 39). -/
def CivoDefaultLoginURL : URLModel :=
  { scheme := "https", host := "auth.civo.com", path := "v2/authorize" }

/-- CivoDefaultRedeemURL (src/providers/civo.go lines 43 to 47). -/
def CivoDefaultRedeemURL : URLModel :=
  { scheme := "https", host := "auth.civo.com", path := "v2/token" }

/-- CivoDefaultProfileURL (src/providers/civo.go lines 51 to 55). -/
def CivoDefaultProfileURL : URLModel :=
  { scheme := "https", host := "auth.civo.com", path := "v2/userinfo" }

/-- CivoOptions models options.CivoOptions: the configured account, the list
of required permission codes and the permissions URL. -/
structure CivoOptions where
  Account : String
  Permissions : List String
  PermissionsURL : String
deriving DecidableEq

/-- CivoProvider (src/providers/civo.go lines 15 to 23): the embedded
ProviderData, the account to restrict access to, the map of required
permission codes (a Go map with struct keys, modelled as its deduplicated
key list) and the permissions URL. -/
structure CivoProvider where
  Data : ProviderData
  Account : String
  PermissionsMap : List String
  PermissionsURL : String
deriving DecidableEq

/-- buildPermissionsMap mirrors the loop in NewCivoProvider (lines 71 to 74)
that inserts every configured permission code into a map: the key set of the
resulting map is the input list with duplicates collapsed. -/
def buildPermissionsMap (perms : List String) : List String :=
  perms.foldl (fun m perm => if m.contains perm then m else m ++ [perm]) []

/-- NewCivoProvider (src/providers/civo.go lines 59 to 91): applies the civo
provider defaults to the provider data and builds the provider with account,
permissions map and permissions URL taken from the options. -/
def NewCivoProvider (p : ProviderData) (opts : CivoOptions) : CivoProvider :=
  { Data := setProviderDefaults p
      { name := "civo"
        loginURL := CivoDefaultLoginURL
        redeemURL := CivoDefaultRedeemURL
        profileURL := CivoDefaultProfileURL
        validateURL := CivoDefaultProfileURL
        scope := CivoDefaultScope }
    Account := opts.Account
    PermissionsMap := buildPermissionsMap opts.Permissions
    PermissionsURL := opts.PermissionsURL }

/-- isUserAllowed (src/providers/civo.go lines 200 to 208): scans the user
permissions and returns true as soon as one code is found in the required
permissions map, false when the scan finds none. -/
def isUserAllowed (p : CivoProvider) (userPermissions : List Permission) : Bool :=
  userPermissions.any fun perm => p.PermissionsMap.contains perm.code

/-- SessionState models the session mutated by the provider.  Modelled from
the spec: the SessionState type lives outside src/providers; the spec records
its accessToken, email and groups fields, User is the field named by the doc
comment of EnrichSession, and Rest stands in for every remaining field, none
of which the Civo provider code mentions. -/
structure SessionState where
  AccessToken : String
  Email : String
  User : String
  Groups : List String
  Rest : String
deriving DecidableEq

/-- getPath models json.GetPath(field).String() on the profile response: the
response is a JSON object modelled as an association list of string fields,
and the lookup fails when the field is absent. -/
def getPath (json : List (String × String)) (field : String) : Except String String :=
  match json.lookup field with
  | some v => Except.ok v
  | none => Except.error ("missing field: " ++ field)

/-- GetEmailAddress (src/providers/civo.go lines 94 to 116).  The profile
fetch is passed in as profileResp; the second component counts the outbound
network calls the Go code would have issued. -/
def GetEmailAddress (_p : CivoProvider)
    (profileResp : Except String (List (String × String)))
    (s : SessionState) : Except String String × Nat :=
  if s.AccessToken = "" then (Except.error "missing access token", 0)
  else
    match profileResp with
    | Except.error e => (Except.error e, 1)
    | Except.ok json =>
      match getPath json "email" with
      | Except.error e => (Except.error e, 1)
      | Except.ok email => (Except.ok email, 1)

/-- EnrichResult packages the outcome of EnrichSession: the returned error if
any, the session after the call (the Go code mutates it in place), and the
number of outbound network calls issued. -/
structure EnrichResult where
  error : Option String
  session : SessionState
  calls : Nat
deriving DecidableEq

/-- EnrichSession (src/providers/civo.go lines 124 to 164): checks the token,
fetches the profile and extracts user_id, fetches the permissions for the
configured account, and on a permission match appends the configured account
to the session groups; every failure returns the error with the session
untouched. -/
def EnrichSession (p : CivoProvider)
    (profileResp : Except String (List (String × String)))
    (permsResp : Except String (List Permission))
    (s : SessionState) : EnrichResult :=
  if s.AccessToken = "" then
    { error := some "missing access token", session := s, calls := 0 }
  else
    match profileResp with
    | Except.error e => { error := some e, session := s, calls := 1 }
    | Except.ok json =>
      match getPath json "user_id" with
      | Except.error e => { error := some e, session := s, calls := 1 }
      | Except.ok user =>
        match permsResp with
        | Except.error e => { error := some e, session := s, calls := 2 }
        | Except.ok permissions =>
          if isUserAllowed p permissions then
            { error := none
              session := { s with Groups := s.Groups ++ [p.Account] }
              calls := 2 }
          else
            { error := some ("user " ++ user ++ " in account " ++ p.Account ++
                " has no sufficient permissions")
              session := s, calls := 2 }

/-- Modelled from the spec: hasQueryParams is repository code outside
src/providers; per the spec the separator depends on whether the URL already
contains a query string, stated there as the URL already containing a
question mark.  URLs are embedded as lists of characters. -/
def hasQueryParams (url : List Char) : Bool := url.contains '?'

/-- joinerChar (src/providers/civo.go lines 192 to 197). -/
def joinerChar (url : List Char) : List Char :=
  if hasQueryParams url then ['&'] else ['?']

/-- permissionsEndpoint is the endpoint string built by
getUserPermissionsInAccount (line 178): the permissions URL, the joiner
character, and account_id=account. -/
def permissionsEndpoint (purl account : List Char) : List Char :=
  purl ++ joinerChar purl ++ ("account_id=".toList) ++ account

/-- getUserPermissionsEndpoint instantiates permissionsEndpoint at the
configured permissions URL and account of a provider, as
getUserPermissionsInAccount does. -/
def getUserPermissionsEndpoint (p : CivoProvider) : List Char :=
  permissionsEndpoint p.PermissionsURL.toList p.Account.toList

/-- beforeFirst c l is the part of l before the first occurrence of c, or all
of l when c does not occur; it models the first component of Go strings.Cut. -/
def beforeFirst (c : Char) : List Char → List Char
  | [] => []
  | x :: xs => if x = c then [] else x :: beforeFirst c xs

/-- afterFirst c l is the part of l after the first occurrence of c, or none
when c does not occur; it models the second component of Go strings.Cut. -/
def afterFirst (c : Char) : List Char → Option (List Char)
  | [] => none
  | x :: xs => if x = c then some xs else afterFirst c xs

/-- splitOnChar c l splits l at every occurrence of c, keeping empty pieces,
as Go strings.Split does. -/
def splitOnChar (c : Char) : List Char → List (List Char)
  | [] => [[]]
  | x :: xs =>
    if x = c then [] :: splitOnChar c xs
    else
      match splitOnChar c xs with
      | [] => [[x]]
      | y :: ys => (x :: y) :: ys

/-- rawQuery models how Go net/url Parse extracts the raw query of a URL
string: the fragment, everything after the first number sign, is cut off
first, and the raw query is everything after the first question mark of what
remains, empty when there is none. -/
def rawQuery (u : List Char) : List Char :=
  (afterFirst '?' (beforeFirst '#' u)).getD []

/-- parseQuery models Go net/url ParseQuery without percent decoding: the raw
query is split on ampersands, empty segments and segments containing a
semicolon are skipped, and each remaining segment is cut at its first equals
sign into a key and a value. -/
def parseQuery (q : List Char) : List (List Char × List Char) :=
  (splitOnChar '&' q).filterMap fun seg =>
    if seg = [] then none
    else if seg.contains ';' then none
    else some (beforeFirst '=' seg, (afterFirst '=' seg).getD [])

/-- egEmptyURL is the zero URL value, as in the construction tests. -/
def egEmptyURL : URLModel := { scheme := "", host := "", path := "" }

/-- egEmptyData is a ProviderData with nothing set, as passed to
NewCivoProvider in TestNewCivoProvider. -/
def egEmptyData : ProviderData :=
  { ProviderName := "", LoginURL := egEmptyURL, RedeemURL := egEmptyURL
    ProfileURL := egEmptyURL, ValidateURL := egEmptyURL, Scope := "" }

/-- egEmptyOptions is the zero CivoOptions value. -/
def egEmptyOptions : CivoOptions :=
  { Account := "", Permissions := [], PermissionsURL := "" }

/-- egOptions is a sample configuration requiring the compute.read
permission, as in the scenario of the spec. -/
def egOptions : CivoOptions :=
  { Account := "acct-1", Permissions := ["compute.read"]
    PermissionsURL := "https://api.civo.com/perms" }

/-- egProvider is the provider built from egOptions. -/
def egProvider : CivoProvider := NewCivoProvider egEmptyData egOptions

/-- egPerm is a remote permission whose code matches egOptions. -/
def egPerm : Permission :=
  { code := "compute.read", name := "x", description := "y" }

/-- egPerms is a remote permission list containing egPerm. -/
def egPerms : List Permission := [egPerm]

/-- egOtherPerms is a remote permission list disjoint from egOptions. -/
def egOtherPerms : List Permission :=
  [{ code := "billing.write", name := "b", description := "c" }]

/-- egProfile is a sample profile response with email and user_id fields. -/
def egProfile : List (String × String) :=
  [("email", "user@example.com"), ("user_id", "u1")]

/-- egSession is a session holding a nonempty access token. -/
def egSession : SessionState :=
  { AccessToken := "tok", Email := "", User := "", Groups := [], Rest := "r" }

/-- egEmptySession is egSession with the access token blanked. -/
def egEmptySession : SessionState := { egSession with AccessToken := "" }

/-- egOptionsQuery is egOptions with a permissions URL already carrying a
query string. -/
def egOptionsQuery : CivoOptions :=
  { Account := "acct-1", Permissions := ["compute.read"]
    PermissionsURL := "https://api.civo.com/perms?x=1" }

/-- egProviderQuery is the provider built from egOptionsQuery. -/
def egProviderQuery : CivoProvider := NewCivoProvider egEmptyData egOptionsQuery

theorem beforeFirst_not_mem (c : Char) (l : List Char) (h : c ∉ l) :
    beforeFirst c l = l := by
  induction l with
  | nil => rfl
  | cons x xs ih =>
    rw [List.mem_cons, not_or] at h
    simp only [beforeFirst, if_neg (Ne.symm h.1), ih h.2]

theorem beforeFirst_append (c : Char) (l₁ l₂ : List Char) (h : c ∉ l₁) :
    beforeFirst c (l₁ ++ c :: l₂) = l₁ := by
  induction l₁ with
  | nil => simp [beforeFirst]
  | cons x xs ih =>
    rw [List.mem_cons, not_or] at h
    simp only [List.cons_append, beforeFirst, if_neg (Ne.symm h.1)]
    rw [show (xs.append (c :: l₂)) = xs ++ c :: l₂ from rfl, ih h.2]

theorem afterFirst_append (c : Char) (l₁ l₂ : List Char) (h : c ∉ l₁) :
    afterFirst c (l₁ ++ c :: l₂) = some l₂ := by
  induction l₁ with
  | nil => simp [afterFirst]
  | cons x xs ih =>
    rw [List.mem_cons, not_or] at h
    simp only [List.cons_append, afterFirst, if_neg (Ne.symm h.1)]
    exact ih h.2

theorem afterFirst_append_left (c : Char) (l₁ l₂ r : List Char)
    (h : afterFirst c l₁ = some r) :
    afterFirst c (l₁ ++ l₂) = some (r ++ l₂) := by
  induction l₁ with
  | nil => simp [afterFirst] at h
  | cons x xs ih =>
    by_cases hx : x = c
    · simp only [afterFirst, if_pos hx, Option.some.injEq] at h
      subst h
      simp only [List.cons_append, afterFirst, if_pos hx]
      rfl
    · simp only [afterFirst, if_neg hx] at h
      simp only [List.cons_append, afterFirst, if_neg hx]
      exact ih h

theorem afterFirst_mem (c : Char) (l : List Char) (h : c ∈ l) :
    ∃ r, afterFirst c l = some r := by
  induction l with
  | nil => cases h
  | cons x xs ih =>
    by_cases hx : x = c
    · exact ⟨xs, by simp [afterFirst, hx]⟩
    · rcases List.mem_cons.mp h with h1 | h2
      · exact absurd h1.symm hx
      · rcases ih h2 with ⟨r, hr⟩
        exact ⟨r, by simp [afterFirst, hx, hr]⟩

theorem splitOnChar_ne_nil (c : Char) (l : List Char) : splitOnChar c l ≠ [] := by
  induction l with
  | nil => simp [splitOnChar]
  | cons x xs ih =>
    simp only [splitOnChar]
    split
    · simp
    · split
      · simp
      · simp

theorem splitOnChar_not_mem (c : Char) (l : List Char) (h : c ∉ l) :
    splitOnChar c l = [l] := by
  induction l with
  | nil => rfl
  | cons x xs ih =>
    rw [List.mem_cons, not_or] at h
    simp only [splitOnChar, if_neg (Ne.symm h.1)]
    rw [ih h.2]

theorem splitOnChar_append (c : Char) (q seg : List Char) (h : c ∉ seg) :
    splitOnChar c (q ++ c :: seg) = splitOnChar c q ++ [seg] := by
  induction q with
  | nil =>
    simp only [List.nil_append, splitOnChar, if_pos rfl,
      splitOnChar_not_mem c seg h]
    rfl
  | cons x xs ih =>
    by_cases hx : x = c
    · simp only [List.cons_append, splitOnChar, if_pos hx]
      rw [show (xs.append (c :: seg)) = xs ++ c :: seg from rfl, ih]
    · simp only [List.cons_append, splitOnChar, if_neg hx]
      rw [show (xs.append (c :: seg)) = xs ++ c :: seg from rfl, ih]
      cases hsp : splitOnChar c xs with
      | nil => exact absurd hsp (splitOnChar_ne_nil c xs)
      | cons y ys => simp

theorem accountParam_eq (a : List Char) :
    "account_id=".toList ++ a = "account_id".toList ++ '=' :: a := by
  have h : "account_id=".toList = "account_id".toList ++ ['='] := by decide
  rw [h, List.append_assoc]
  rfl

theorem parseQuery_append (q seg : List Char) (hseg : seg ≠ [])
    (hamp : '&' ∉ seg) (hsemi : ';' ∉ seg) :
    parseQuery (q ++ '&' :: seg) =
      parseQuery q ++ [(beforeFirst '=' seg, (afterFirst '=' seg).getD [])] := by
  unfold parseQuery
  rw [splitOnChar_append '&' q seg hamp, List.filterMap_append]
  simp [hseg, hsemi]

theorem parseQuery_single (seg : List Char) (hseg : seg ≠ [])
    (hamp : '&' ∉ seg) (hsemi : ';' ∉ seg) :
    parseQuery seg =
      [(beforeFirst '=' seg, (afterFirst '=' seg).getD [])] := by
  unfold parseQuery
  rw [splitOnChar_not_mem '&' seg hamp]
  simp [hseg, hsemi]

theorem buildPermissionsMap_loop_mem (perms acc : List String) (c : String) :
    (c ∈ perms.foldl
        (fun m perm => if m.contains perm then m else m ++ [perm]) acc) ↔
      c ∈ acc ∨ c ∈ perms := by
  induction perms generalizing acc with
  | nil => simp
  | cons p ps ih =>
    simp only [List.foldl_cons, ih, List.mem_cons]
    by_cases hp : acc.contains p
    · rw [if_pos hp]
      have hpm : p ∈ acc := by
        have := hp
        simpa using this
      constructor
      · rintro (h | h)
        · exact Or.inl h
        · exact Or.inr (Or.inr h)
      · rintro (h | h | h)
        · exact Or.inl h
        · exact Or.inl (h ▸ hpm)
        · exact Or.inr h
    · rw [if_neg hp]
      simp only [List.mem_append, List.mem_singleton]
      tauto

theorem buildPermissionsMap_mem (perms : List String) (c : String) :
    c ∈ buildPermissionsMap perms ↔ c ∈ perms := by
  unfold buildPermissionsMap
  rw [buildPermissionsMap_loop_mem]
  simp

/-- C1: for every permission list P and the required permission set built at
construction from the configured codes, isUserAllowed P is true exactly when
some element of P has a code among the configured codes; in particular it is
false when P is empty, when no codes are configured, and when the codes of P
are disjoint from the configured ones. -/
theorem isUserAllowed_iff_overlap (pd : ProviderData) (opts : CivoOptions)
    (P : List Permission) :
    (isUserAllowed (NewCivoProvider pd opts) P = true ↔
      ∃ perm ∈ P, perm.code ∈ opts.Permissions) ∧
    (P = [] → isUserAllowed (NewCivoProvider pd opts) P = false) ∧
    (opts.Permissions = [] → isUserAllowed (NewCivoProvider pd opts) P = false) ∧
    ((∀ perm ∈ P, perm.code ∉ opts.Permissions) →
      isUserAllowed (NewCivoProvider pd opts) P = false) := by
  have hmain : isUserAllowed (NewCivoProvider pd opts) P = true ↔
      ∃ perm ∈ P, perm.code ∈ opts.Permissions := by
    unfold isUserAllowed NewCivoProvider
    simp only [List.any_eq_true, List.contains_iff_exists_mem_beq]
    constructor
    · rintro ⟨perm, hp, code, hcode, hbeq⟩
      exact ⟨perm, hp, by
        rw [show perm.code = code from by simpa using hbeq] at *
        exact (buildPermissionsMap_mem opts.Permissions code).mp hcode⟩
    · rintro ⟨perm, hp, hmem⟩
      exact ⟨perm, hp, perm.code,
        (buildPermissionsMap_mem opts.Permissions perm.code).mpr hmem, by simp⟩
  refine ⟨hmain, ?_, ?_, ?_⟩
  · intro h
    subst h
    rfl
  · intro h
    cases htrue : isUserAllowed (NewCivoProvider pd opts) P with
    | false => rfl
    | true =>
      rcases hmain.mp htrue with ⟨perm, _, hmem⟩
      rw [h] at hmem
      cases hmem
  · intro h
    cases htrue : isUserAllowed (NewCivoProvider pd opts) P with
    | false => rfl
    | true =>
      rcases hmain.mp htrue with ⟨perm, hp, hmem⟩
      exact absurd hmem (h perm hp)

/-- Witness for C1: the decision evaluated on concrete inputs, once per
conjunct of the theorem. -/
theorem isUserAllowed_iff_overlap_witness :
    isUserAllowed (NewCivoProvider egEmptyData egOptions) [] = false ∧
    isUserAllowed (NewCivoProvider egEmptyData egEmptyOptions) egPerms = false ∧
    isUserAllowed (NewCivoProvider egEmptyData egOptions) egOtherPerms = false ∧
    isUserAllowed (NewCivoProvider egEmptyData egOptions) egPerms = true :=
  ⟨(isUserAllowed_iff_overlap egEmptyData egOptions []).2.1 rfl,
   (isUserAllowed_iff_overlap egEmptyData egEmptyOptions egPerms).2.2.1 rfl,
   (isUserAllowed_iff_overlap egEmptyData egOptions egOtherPerms).2.2.2 (by decide),
   (isUserAllowed_iff_overlap egEmptyData egOptions egPerms).1.mpr
     ⟨egPerm, by decide, by decide⟩⟩

/-- C10: isUserAllowed is monotone in the permission list: appending a
further permission record never turns an allowed decision into a denial. -/
theorem isUserAllowed_monotone (p : CivoProvider) (P : List Permission)
    (q : Permission) (h : isUserAllowed p P = true) :
    isUserAllowed p (P ++ [q]) = true := by
  unfold isUserAllowed at h ⊢
  rw [List.any_append, h, Bool.true_or]

/-- Witness for C10: a concrete allowed list stays allowed after appending a
non matching permission. -/
theorem isUserAllowed_monotone_witness :
    isUserAllowed egProvider
      (egPerms ++ [{ code := "billing.write", name := "b", description := "c" }]) =
      true :=
  isUserAllowed_monotone egProvider egPerms _ (by decide)

theorem enrichSession_run (p : CivoProvider) (json : List (String × String))
    (user : String) (ps : List Permission) (s : SessionState)
    (hs : s.AccessToken ≠ "") (hg : getPath json "user_id" = Except.ok user)
    (ha : isUserAllowed p ps = true) :
    EnrichSession p (Except.ok json) (Except.ok ps) s =
      { error := none
        session := { s with Groups := s.Groups ++ [p.Account] }
        calls := 2 } := by
  unfold EnrichSession
  simp [hs, hg, ha]

theorem enrichSession_success_inv (p : CivoProvider)
    (prof : Except String (List (String × String)))
    (perms : Except String (List Permission)) (s : SessionState)
    (h : (EnrichSession p prof perms s).error = none) :
    s.AccessToken ≠ "" ∧ ∃ json user ps, prof = Except.ok json ∧
      getPath json "user_id" = Except.ok user ∧ perms = Except.ok ps ∧
      isUserAllowed p ps = true := by
  by_cases hs : s.AccessToken = ""
  · unfold EnrichSession at h
    simp [hs] at h
  · refine ⟨hs, ?_⟩
    cases prof with
    | error e =>
      unfold EnrichSession at h
      simp [hs] at h
    | ok json =>
      cases hg : getPath json "user_id" with
      | error e =>
        unfold EnrichSession at h
        simp [hs, hg] at h
      | ok user =>
        cases perms with
        | error e =>
          unfold EnrichSession at h
          simp [hs, hg] at h
        | ok ps =>
          by_cases ha : isUserAllowed p ps
          · exact ⟨json, user, ps, rfl, hg, rfl, ha⟩
          · unfold EnrichSession at h
            simp [hs, hg, ha] at h

theorem enrichSession_cases (p : CivoProvider)
    (prof : Except String (List (String × String)))
    (perms : Except String (List Permission)) (s : SessionState) :
    (EnrichSession p prof perms s).error = none ∨
    (EnrichSession p prof perms s).session = s := by
  by_cases hs : s.AccessToken = ""
  · right
    unfold EnrichSession
    simp [hs]
  · cases prof with
    | error e =>
      right
      unfold EnrichSession
      simp [hs]
    | ok json =>
      cases hg : getPath json "user_id" with
      | error e =>
        right
        unfold EnrichSession
        simp [hs, hg]
      | ok user =>
        cases perms with
        | error e =>
          right
          unfold EnrichSession
          simp [hs, hg]
        | ok ps =>
          by_cases ha : isUserAllowed p ps
          · left
            unfold EnrichSession
            simp [hs, hg, ha]
          · right
            unfold EnrichSession
            simp [hs, hg, ha]

/-- C2: every failing EnrichSession invocation, empty token, profile fetch or
parse failure, missing user_id, permissions fetch failure or no matching
permission, leaves the session untouched, and each propagated error reaches
the caller unchanged. -/
theorem enrichSession_errors (p : CivoProvider)
    (prof : Except String (List (String × String)))
    (perms : Except String (List Permission)) (s : SessionState) :
    (∀ e, (EnrichSession p prof perms s).error = some e →
      (EnrichSession p prof perms s).session = s) ∧
    (s.AccessToken = "" →
      (EnrichSession p prof perms s).error = some "missing access token") ∧
    (∀ e, prof = Except.error e → s.AccessToken ≠ "" →
      (EnrichSession p prof perms s).error = some e) ∧
    (∀ json e, prof = Except.ok json → s.AccessToken ≠ "" →
      getPath json "user_id" = Except.error e →
      (EnrichSession p prof perms s).error = some e) ∧
    (∀ json user e, prof = Except.ok json → s.AccessToken ≠ "" →
      getPath json "user_id" = Except.ok user → perms = Except.error e →
      (EnrichSession p prof perms s).error = some e) ∧
    (∀ json user ps, prof = Except.ok json → s.AccessToken ≠ "" →
      getPath json "user_id" = Except.ok user → perms = Except.ok ps →
      isUserAllowed p ps = false →
      (EnrichSession p prof perms s).error =
        some ("user " ++ user ++ " in account " ++ p.Account ++
          " has no sufficient permissions")) := by
  refine ⟨?_, ?_, ?_, ?_, ?_, ?_⟩
  · intro e he
    rcases enrichSession_cases p prof perms s with h | h
    · rw [he] at h
      simp at h
    · exact h
  · intro h
    unfold EnrichSession
    simp [h]
  · rintro e rfl hs
    unfold EnrichSession
    simp [hs]
  · rintro json e rfl hs hg
    unfold EnrichSession
    simp [hs, hg]
  · rintro json user e rfl hs hg rfl
    unfold EnrichSession
    simp [hs, hg]
  · rintro json user ps rfl hs hg rfl ha
    unfold EnrichSession
    simp [hs, hg, ha]

/-- Witness for C2: concrete failing invocations, a fetch error propagated
unchanged, a denial leaving the session untouched, and an empty token. -/
theorem enrichSession_errors_witness :
    (EnrichSession egProvider (Except.error "boom") (Except.ok egPerms)
      egSession).error = some "boom" ∧
    (EnrichSession egProvider (Except.ok egProfile) (Except.ok egOtherPerms)
      egSession).session = egSession ∧
    (EnrichSession egProvider (Except.ok egProfile) (Except.ok egPerms)
      egEmptySession).error = some "missing access token" :=
  ⟨(enrichSession_errors egProvider (Except.error "boom") (Except.ok egPerms)
      egSession).2.2.1 "boom" rfl (by decide),
   (enrichSession_errors egProvider (Except.ok egProfile) (Except.ok egOtherPerms)
      egSession).1
      "user u1 in account acct-1 has no sufficient permissions" (by decide),
   (enrichSession_errors egProvider (Except.ok egProfile) (Except.ok egPerms)
      egEmptySession).2.1 rfl⟩

/-- C3: a successful EnrichSession appends exactly the configured account to
the session groups, and a repeated successful call appends exactly one more
such entry without deduplication. -/
theorem enrichSession_success_appends (p : CivoProvider)
    (prof : Except String (List (String × String)))
    (perms : Except String (List Permission)) (s : SessionState) :
    ((EnrichSession p prof perms s).error = none →
      (EnrichSession p prof perms s).session.Groups =
        s.Groups ++ [p.Account]) ∧
    ((EnrichSession p prof perms s).error = none →
      (EnrichSession p prof perms
        ((EnrichSession p prof perms s).session)).error = none ∧
      (EnrichSession p prof perms
        ((EnrichSession p prof perms s).session)).session.Groups =
        s.Groups ++ [p.Account] ++ [p.Account]) := by
  constructor
  · intro h
    obtain ⟨hs, json, user, ps, rfl, hg, rfl, ha⟩ :=
      enrichSession_success_inv p prof perms s h
    rw [enrichSession_run p json user ps s hs hg ha]
  · intro h
    obtain ⟨hs, json, user, ps, rfl, hg, rfl, ha⟩ :=
      enrichSession_success_inv p prof perms s h
    rw [enrichSession_run p json user ps s hs hg ha]
    have hs2 : ({ s with Groups := s.Groups ++ [p.Account] } :
        SessionState).AccessToken ≠ "" := hs
    rw [enrichSession_run p json user ps _ hs2 hg ha]
    exact ⟨rfl, rfl⟩

/-- Witness for C3: one successful call appends the configured account once,
a second successful call appends it once more. -/
theorem enrichSession_success_appends_witness :
    (EnrichSession egProvider (Except.ok egProfile) (Except.ok egPerms)
      egSession).session.Groups = egSession.Groups ++ [egProvider.Account] ∧
    (EnrichSession egProvider (Except.ok egProfile) (Except.ok egPerms)
      ((EnrichSession egProvider (Except.ok egProfile) (Except.ok egPerms)
        egSession).session)).session.Groups =
      egSession.Groups ++ [egProvider.Account] ++ [egProvider.Account] := by
  have h := enrichSession_success_appends egProvider (Except.ok egProfile)
    (Except.ok egPerms) egSession
  exact ⟨h.1 (by decide), (h.2 (by decide)).2⟩

/-- C4: with an empty access token, GetEmailAddress and EnrichSession return
the missing credential error with zero outbound network calls, and the
session is untouched. -/
theorem emptyToken_no_network (p : CivoProvider)
    (prof : Except String (List (String × String)))
    (perms : Except String (List Permission)) (s : SessionState)
    (h : s.AccessToken = "") :
    GetEmailAddress p prof s = (Except.error "missing access token", 0) ∧
    EnrichSession p prof perms s =
      { error := some "missing access token", session := s, calls := 0 } := by
  unfold GetEmailAddress EnrichSession
  simp [h]

/-- Witness for C4: both operations on a concrete empty token session. -/
theorem emptyToken_no_network_witness :
    GetEmailAddress egProvider (Except.ok egProfile) egEmptySession =
      (Except.error "missing access token", 0) ∧
    EnrichSession egProvider (Except.ok egProfile) (Except.ok egPerms)
      egEmptySession =
      { error := some "missing access token", session := egEmptySession,
        calls := 0 } :=
  emptyToken_no_network egProvider (Except.ok egProfile) (Except.ok egPerms)
    egEmptySession rfl

/-- C9: a successful EnrichSession modifies only the Groups field: access
token, email, user and every remaining field are exactly as before the
call. -/
theorem enrichSession_frame (p : CivoProvider)
    (prof : Except String (List (String × String)))
    (perms : Except String (List Permission)) (s : SessionState)
    (h : (EnrichSession p prof perms s).error = none) :
    (EnrichSession p prof perms s).session.AccessToken = s.AccessToken ∧
    (EnrichSession p prof perms s).session.Email = s.Email ∧
    (EnrichSession p prof perms s).session.User = s.User ∧
    (EnrichSession p prof perms s).session.Rest = s.Rest := by
  obtain ⟨hs, json, user, ps, rfl, hg, rfl, ha⟩ :=
    enrichSession_success_inv p prof perms s h
  rw [enrichSession_run p json user ps s hs hg ha]
  exact ⟨rfl, rfl, rfl, rfl⟩

/-- Witness for C9: the frame condition on a concrete successful call. -/
theorem enrichSession_frame_witness :
    (EnrichSession egProvider (Except.ok egProfile) (Except.ok egPerms)
      egSession).session.AccessToken = egSession.AccessToken ∧
    (EnrichSession egProvider (Except.ok egProfile) (Except.ok egPerms)
      egSession).session.Email = egSession.Email ∧
    (EnrichSession egProvider (Except.ok egProfile) (Except.ok egPerms)
      egSession).session.User = egSession.User ∧
    (EnrichSession egProvider (Except.ok egProfile) (Except.ok egPerms)
      egSession).session.Rest = egSession.Rest :=
  enrichSession_frame egProvider (Except.ok egProfile) (Except.ok egPerms)
    egSession (by decide)

/-- C5: evaluation at the failing input: a successful EnrichSession run on a
profile carrying email user@example.com leaves the session email, and user,
empty, although the doc comment of EnrichSession says it updates User and
Email and the spec says the email is written during enrichment. -/
theorem enrichSession_leaves_email_empty :
    (EnrichSession egProvider (Except.ok egProfile) (Except.ok egPerms)
      egSession).error = none ∧
    getPath egProfile "email" = Except.ok "user@example.com" ∧
    (EnrichSession egProvider (Except.ok egProfile) (Except.ok egPerms)
      egSession).session.Email = "" ∧
    (EnrichSession egProvider (Except.ok egProfile) (Except.ok egPerms)
      egSession).session.User = "" :=
  ⟨rfl, rfl, rfl, rfl⟩

/-- C8: evaluation of the defaulted configuration: NewCivoProvider leaves the
login URL at https://auth.civo.com/v2/authorize, and similarly v2 paths for
token and userinfo, while the repository test TestNewCivoProvider expects
https://auth.civo.com/authorize and friends; the scope and provider name
defaults match. -/
theorem civo_default_urls :
    urlString (NewCivoProvider egEmptyData egEmptyOptions).Data.LoginURL =
      "https://auth.civo.com/v2/authorize" ∧
    urlString (NewCivoProvider egEmptyData egEmptyOptions).Data.RedeemURL =
      "https://auth.civo.com/v2/token" ∧
    urlString (NewCivoProvider egEmptyData egEmptyOptions).Data.ProfileURL =
      "https://auth.civo.com/v2/userinfo" ∧
    urlString (NewCivoProvider egEmptyData egEmptyOptions).Data.ValidateURL =
      "https://auth.civo.com/v2/userinfo" ∧
    (NewCivoProvider egEmptyData egEmptyOptions).Data.Scope = "read" ∧
    (NewCivoProvider egEmptyData egEmptyOptions).Data.ProviderName = "civo" ∧
    urlString (NewCivoProvider egEmptyData egEmptyOptions).Data.LoginURL ≠
      "https://auth.civo.com/authorize" :=
  ⟨rfl, rfl, rfl, rfl, rfl, rfl, by decide⟩

/-- C6: the permissions endpoint is the configured URL followed by a
separator followed by account_id= followed by the account, the separator
being a question mark when the URL contains no question mark yet and an
ampersand when it already contains one. -/
theorem getUserPermissionsEndpoint_separator (p : CivoProvider) :
    ('?' ∉ p.PermissionsURL.toList →
      getUserPermissionsEndpoint p =
        p.PermissionsURL.toList ++ ['?'] ++ "account_id=".toList ++
          p.Account.toList) ∧
    ('?' ∈ p.PermissionsURL.toList →
      getUserPermissionsEndpoint p =
        p.PermissionsURL.toList ++ ['&'] ++ "account_id=".toList ++
          p.Account.toList) := by
  constructor
  · intro h
    have h2 : '?' ∉ p.PermissionsURL.data := h
    unfold getUserPermissionsEndpoint permissionsEndpoint joinerChar
      hasQueryParams
    simp [h2]
  · intro h
    have h2 : '?' ∈ p.PermissionsURL.data := h
    unfold getUserPermissionsEndpoint permissionsEndpoint joinerChar
      hasQueryParams
    simp [h2]

/-- Witness for C6: the endpoint built from a URL without a query and from a
URL already carrying one. -/
theorem getUserPermissionsEndpoint_separator_witness :
    getUserPermissionsEndpoint egProvider =
      egProvider.PermissionsURL.toList ++ ['?'] ++ "account_id=".toList ++
        egProvider.Account.toList ∧
    getUserPermissionsEndpoint egProviderQuery =
      egProviderQuery.PermissionsURL.toList ++ ['&'] ++ "account_id=".toList ++
        egProviderQuery.Account.toList :=
  ⟨(getUserPermissionsEndpoint_separator egProvider).1 (by decide),
   (getUserPermissionsEndpoint_separator egProviderQuery).2 (by decide)⟩

/-- C7 counterexample: with a configured permissions URL containing a number
sign, the built endpoint parses with an empty query, the appended pair lands
in the fragment, so account_id=acc is not among its query parameters. -/
theorem permissionsEndpoint_fragment_loses_param :
    ("account_id".toList, "acc".toList) ∉
      parseQuery (rawQuery (permissionsEndpoint
        "https://api.civo.com/perms#ref".toList "acc".toList)) := by
  decide

/-- C7 amended: for every permissions URL without a number sign and every
account containing no ampersand, number sign, semicolon, percent or plus, the
built endpoint parses with account_id=account among its query parameters. -/
theorem permissionsEndpoint_query_contains (u a : List Char)
    (hu : '#' ∉ u) (ha1 : '&' ∉ a) (ha2 : '#' ∉ a) (ha3 : ';' ∉ a)
    (_ha4 : '%' ∉ a) (_ha5 : '+' ∉ a) :
    ("account_id".toList, a) ∈
      parseQuery (rawQuery (permissionsEndpoint u a)) := by
  have hne : "account_id=".toList ++ a ≠ [] := by
    intro hcontra
    have hsplit := List.append_eq_nil.mp hcontra
    simp at hsplit
  have hhash : ('#' : Char) ∉ "account_id=".toList ++ a := by
    simp only [List.mem_append, not_or]
    exact ⟨by decide, ha2⟩
  have hamp : ('&' : Char) ∉ "account_id=".toList ++ a := by
    simp only [List.mem_append, not_or]
    exact ⟨by decide, ha1⟩
  have hsemi : (';' : Char) ∉ "account_id=".toList ++ a := by
    simp only [List.mem_append, not_or]
    exact ⟨by decide, ha3⟩
  have heq : ('=' : Char) ∉ "account_id".toList := by decide
  have hkey : beforeFirst '=' ("account_id=".toList ++ a) =
      "account_id".toList := by
    rw [accountParam_eq a]
    exact beforeFirst_append '=' _ a heq
  have hval : afterFirst '=' ("account_id=".toList ++ a) = some a := by
    rw [accountParam_eq a]
    exact afterFirst_append '=' _ a heq
  by_cases hq : '?' ∈ u
  · obtain ⟨r, hr⟩ := afterFirst_mem '?' u hq
    have hend : permissionsEndpoint u a =
        u ++ '&' :: ("account_id=".toList ++ a) := by
      unfold permissionsEndpoint joinerChar hasQueryParams
      simp [hq]
    have hww : ('#' : Char) ∉ u ++ '&' :: ("account_id=".toList ++ a) := by
      simp only [List.mem_append, List.mem_cons, not_or]
      exact ⟨hu, by decide, by decide, ha2⟩
    rw [hend]
    unfold rawQuery
    rw [beforeFirst_not_mem '#' _ hww,
      afterFirst_append_left '?' u _ r hr, Option.getD_some,
      parseQuery_append r _ hne hamp hsemi, hkey, hval, Option.getD_some]
    exact List.mem_append_right _ (List.mem_singleton.mpr rfl)
  · have hend : permissionsEndpoint u a =
        u ++ '?' :: ("account_id=".toList ++ a) := by
      unfold permissionsEndpoint joinerChar hasQueryParams
      simp [hq]
    have hww : ('#' : Char) ∉ u ++ '?' :: ("account_id=".toList ++ a) := by
      simp only [List.mem_append, List.mem_cons, not_or]
      exact ⟨hu, by decide, by decide, ha2⟩
    rw [hend]
    unfold rawQuery
    rw [beforeFirst_not_mem '#' _ hww,
      afterFirst_append '?' u _ hq, Option.getD_some,
      parseQuery_single _ hne hamp hsemi, hkey, hval, Option.getD_some]
    exact List.mem_singleton.mpr rfl

/-- Witness for C7 amended: the parameter is present for a concrete clean URL
and account. -/
theorem permissionsEndpoint_query_contains_witness :
    ("account_id".toList, "acct-1".toList) ∈
      parseQuery (rawQuery (permissionsEndpoint
        "https://api.civo.com/perms".toList "acct-1".toList)) :=
  permissionsEndpoint_query_contains "https://api.civo.com/perms".toList
    "acct-1".toList (by decide) (by decide) (by decide) (by decide)
    (by decide) (by decide)

end Civo
